import Mathlib

/-!
Verification of the PatchTrack matching engine (src/analyzer).

This file gives a shallow embedding of the code paths the claims talk
about: the three string hash functions and the configuration constants
(`analyzer/common.py`, `analyzer/constant.py`), the patch loader's hunk
splitting and fingerprinting (`analyzer/patchLoader.py`), the source
loader's bit-vector scan and membership check (`analyzer/sourceLoader.py`),
the hunk classifiers (`analyzer/classifier.py`) and the PR-level
aggregation (`analyzer/totals.py`).

Modelling conventions:
* Python strings are `List Char` (`Token`); `ord c` is `Char.toNat`.
* 32-bit wraparound (`&= 0xFFFFFFFF`) is `% 4294967296` on `Nat`.
* The `bitarray` bit vector is represented by the list of positions that
  have been set; reading index `h` succeeds with the membership bit when
  `h < bloomfilter_size` and raises `IndexError` otherwise, exactly like
  `bitarray` indexing (all writes in the code are masked, hence in range).
* Fallible code returns `Except String`; the error string names the
  Python exception that the corresponding line raises.
* Python dicts that are only ever extended in insertion order are
  association lists.
-/

abbrev Token := List Char

/-- `constant.BLOOMFILTER_SIZE`. -/
def bloomfilter_size : Nat := 2097152

/-- `constant.MIN_MN_RATIO`. -/
def min_mn_ratio : Nat := 32

/-- `common.fnv1a_hash`: FNV-1a 32-bit string hash. -/
def fnv1a_hash (s : Token) : Nat :=
  s.foldl (fun h c => ((h ^^^ c.toNat) * 16777619) % 4294967296) 2166136261

/-- `common.djb2_hash`: djb2 32-bit string hash. -/
def djb2_hash (s : Token) : Nat :=
  s.foldl (fun h c => ((h <<< 5) + h + c.toNat) % 4294967296) 5381

/-- `common.sdbm_hash`: sdbm 32-bit string hash.  The subtraction
`ord(c) + (h << 6) + (h << 16) - h` never goes negative in Python because
`h <<< 6 ≥ h`, so truncated `Nat` subtraction agrees with it. -/
def sdbm_hash (s : Token) : Nat :=
  s.foldl (fun h c => (c.toNat + (h <<< 6) + (h <<< 16) - h) % 4294967296) 0

/-- Number of loop iterations of Python `for i in range(len - n + 1)`:
the count is computed in `Int` because `range` of a non-positive bound is
empty while `Nat` subtraction would truncate to `0 - _ + 1 = 1`. -/
def num_windows (len n : Nat) : Nat := ((len : Int) - n + 1).toNat

/-- `common.PatchInfo` restricted to the fields the analysed code reads
(`norm_lines`, `hash_list`, `patch_hashes` and the effective
`ngram_size` recorded for the hunk). -/
structure PatchInfo where
  norm_lines : List Token
  hash_list : List Nat
  patch_hashes : List (Token × List Nat)
  ngram_size : Nat
deriving DecidableEq, Inhabited

/-- `' '.join` of a window of tokens, as used on the patch side in
`PatchLoader._build_hash_list`. -/
def ngram_join (window : List Token) : Token := List.intercalate [' '] window

/-- `PatchLoader._build_hash_list`: slide a window of `n` tokens over the
normalized diff lines; for each window push the three raw (unmasked)
32-bit hashes onto the flat `hash_list` and the pair
`(ngram, [fnv1a, djb2, sdbm])` onto `patch_hashes`. -/
def build_hash_list (n : Nat) (diff_norm_lines : List Token) :
    List Nat × List (Token × List Nat) :=
  let triples := (List.range (num_windows diff_norm_lines.length n)).map (fun i =>
    let ngram := ngram_join ((diff_norm_lines.drop i).take n)
    (ngram, [fnv1a_hash ngram, djb2_hash ngram, sdbm_hash ngram]))
  (triples.flatMap (·.2), triples)

/-- `PatchLoader._add_patch_from_diff`, starting from the normalized
token list of one hunk.  Returns the appended `PatchInfo` together with
the value of the global `common.ngram_size` after the call (the short
branch overwrites it with the token count). -/
def add_patch_from_diff (ngram_size0 : Nat) (diff_norm_lines : List Token) :
    PatchInfo × Nat :=
  if diff_norm_lines.length ≥ ngram_size0 then
    let hp := build_hash_list ngram_size0 diff_norm_lines
    (⟨diff_norm_lines, hp.1, hp.2, ngram_size0⟩, ngram_size0)
  else
    let k := diff_norm_lines.length
    let hp := build_hash_list k diff_norm_lines
    (⟨diff_norm_lines, hp.1, hp.2, k⟩, k)

/-- Python `line.startswith('@@')`. -/
def line_marks_hunk : Token → Bool
  | '@' :: '@' :: _ => true
  | _ => false

/-- Python `line.startswith(c)` for a one-character marker. -/
def line_starts (c : Char) : Token → Bool
  | x :: _ => x == c
  | [] => false

/-- Loop body of `PatchLoader._process_patch` / `_process_buggy`,
keeping only what determines how many hunks are flushed to
`_add_patch_from_diff` (each flush appends exactly one `PatchInfo`):
`cur` is the pending `diff_patch_lines` / `diff_buggy_lines` buffer and
`acc` the groups flushed so far.  `mode` is `'+'` for the patch variant
and `'-'` for the buggy variant. -/
def collect_hunks_go (mode : Char) :
    List Token → List Token → List (List Token) → List (List Token)
  | [], cur, acc => if cur.isEmpty then acc else acc ++ [cur]
  | l :: rest, cur, acc =>
    if line_marks_hunk l then
      collect_hunks_go mode rest [] (if cur.isEmpty then acc else acc ++ [cur])
    else if line_starts mode l then
      collect_hunks_go mode rest (cur ++ [l.drop 1]) acc
    else if line_starts ' ' l then
      collect_hunks_go mode rest (cur ++ [l.drop 1]) acc
    else
      collect_hunks_go mode rest cur acc

/-- The hunk line-groups `PatchLoader._process_patch` (`mode = '+'`) or
`_process_buggy` (`mode = '-'`) flushes for the given patch lines; its
length is the number of `PatchInfo` records appended. -/
def collect_hunks (mode : Char) (patch_lines : List Token) : List (List Token) :=
  collect_hunks_go mode patch_lines [] []

/-- `bitarray` read `self._bit_vector[h]`: in range it returns whether
the bit is set, out of range it raises `IndexError`. -/
def bv_get (bv : List Nat) (h : Nat) : Except String Bool :=
  if h < bloomfilter_size then .ok (bv.contains h) else .error "IndexError"

/-- The per-record scan state of `SourceLoader._query_bloomfilter`:
the bit vector, the `num_ngram_processed` counter and the accumulated
`self._source_hashes` list. -/
structure ScanState where
  bv : List Nat
  num_ngram_processed : Nat
  source_hashes : List (Token × List Nat)
deriving DecidableEq

/-- One iteration of the window loop in
`SourceLoader._query_bloomfilter`.  When the processed counter exceeds
`bloomfilter_size / min_mn_ratio` (the Python float division is exact
here: 2097152 / 32 = 65536) the code calls `_check_bloom_match`, which
evaluates `self._patch_list[patch_id].get('old_norm_lines', [])`; the
patch list holds `PatchInfo` namedtuples, which have no `get` method, so
entering this branch raises `AttributeError`.  Otherwise the window
`''.join(tokens[i : i + n])` is hashed, the three masked bits are set and
the window is appended to `source_hashes`. -/
def scan_step (tokens : List Token) (n : Nat) (st : ScanState) (i : Nat) :
    Except String ScanState :=
  if st.num_ngram_processed > bloomfilter_size / min_mn_ratio then
    .error "AttributeError"
  else
    let ngram := List.flatten ((tokens.drop i).take n)
    let hash1 := fnv1a_hash ngram &&& (bloomfilter_size - 1)
    let hash2 := djb2_hash ngram &&& (bloomfilter_size - 1)
    let hash3 := sdbm_hash ngram &&& (bloomfilter_size - 1)
    .ok { bv := st.bv ++ [hash1, hash2, hash3],
          num_ngram_processed := st.num_ngram_processed + 1,
          source_hashes := st.source_hashes ++ [(ngram, [hash1, hash2, hash3])] }

/-- The full window loop for one patch record: scan every window index. -/
def scan_source (tokens : List Token) (n : Nat) (st : ScanState) :
    Except String ScanState :=
  (List.range (num_windows tokens.length n)).foldlM (scan_step tokens n) st

/-- Recursion of `SourceLoader._check_patch_hashes` over the flat raw
`hash_list`, with the `i` / `seq` counters that group hashes in threes;
each verdict is `(seq, hash, bit set?)`.  Reading the bit vector with a
raw hash `≥ bloomfilter_size` raises `IndexError` (see `bv_get`). -/
def check_hashes_go (bv : List Nat) :
    List Nat → Nat → Nat → Except String (List (Nat × Nat × Bool))
  | [], _, _ => .ok []
  | h :: rest, i, seq =>
    let p := if i == 3 then (0, seq + 1) else (i, seq)
    match bv_get bv h with
    | .error e => .error e
    | .ok b =>
      match check_hashes_go bv rest (p.1 + 1) p.2 with
      | .error e => .error e
      | .ok l => .ok ((p.2, h, b) :: l)

/-- `SourceLoader._check_patch_hashes` for one patch record. -/
def check_patch_hashes (bv : List Nat) (hash_list : List Nat) :
    Except String (List (Nat × Nat × Bool)) :=
  check_hashes_go bv hash_list 0 0

/-- Result of `SourceLoader._query_bloomfilter`: the per-patch verdict
lists (`self._match_dict`), the accumulated source hashes, and the final
value of the global `common.ngram_size`. -/
structure QueryResult where
  match_items : List (Nat × List (Nat × Nat × Bool))
  source_hashes : List (Token × List Nat)
  final_ngram_size : Nat
deriving DecidableEq

/-- The patch loop of `SourceLoader._query_bloomfilter`.  At the top of
each iteration the guard `len(tokens) < common.ngram_size` is evaluated
against the *current* global n-gram size — i.e. the previous record's
size (or the incoming one for the first record) — and on failure the
whole procedure returns early, keeping whatever was matched so far.
Only after the guard does the code overwrite the global size with this
record's `ngram_size`, clear the bit vector, scan, and run the final
membership check. -/
def query_bloomfilter_go (tokens : List Token) :
    List PatchInfo → Nat → Nat → List (Nat × List (Nat × Nat × Bool)) →
    List (Token × List Nat) → Except String QueryResult
  | [], cur, _, acc, sh => .ok ⟨acc, sh, cur⟩
  | r :: rest, cur, pid, acc, sh =>
    if tokens.length < cur then .ok ⟨acc, sh, cur⟩
    else
      match scan_source tokens r.ngram_size ⟨[], 0, sh⟩ with
      | .error e => .error e
      | .ok st =>
        match check_patch_hashes st.bv r.hash_list with
        | .error e => .error e
        | .ok verdicts =>
          query_bloomfilter_go tokens rest r.ngram_size (pid + 1)
            (acc ++ [(pid, verdicts)]) st.source_hashes

/-- `SourceLoader._query_bloomfilter` on an already-normalized token
stream, starting from the incoming global `common.ngram_size`. -/
def query_bloomfilter (tokens : List Token) (patch_list : List PatchInfo)
    (ngram_size0 : Nat) : Except String QueryResult :=
  query_bloomfilter_go tokens patch_list ngram_size0 0 [] []

/-- The `match_items` table consumed by the classifier: per patch
number, per window sequence number, the per-hash boolean verdicts in
insertion order. -/
abbrev MatchItems := List (Nat × List (Nat × List (Nat × Bool)))

/-- Number of true verdicts of one window (`count` in the classifier). -/
def count_true (w : List (Nat × Bool)) : Nat := (w.filter (fun p => p.2)).length

/-- Per-window record built by `classifier.find_hunk_matches`. -/
structure SeqInfo where
  count : Nat
  hash_list : List Nat
deriving DecidableEq, Inhabited

/-- Per-hunk record built by `classifier.find_hunk_matches`. -/
structure HunkMatch where
  sequences : List (Nat × SeqInfo)
  cls : String
deriving DecidableEq, Inhabited

/-- First loop of `classifier.find_hunk_matches`: build `sequences` with
window counts and key lists, class still empty. -/
def fh_phase1 (match_items : MatchItems) : List (Nat × HunkMatch) :=
  match_items.map (fun pr =>
    (pr.1, ⟨pr.2.map (fun sq => (sq.1, ⟨count_true sq.2, sq.2.map (·.1)⟩)), ""⟩))

/-- The inner check of the second loop: `match_bool` survives a hunk iff
no window of the hunk has `count < 2`. -/
def seqs_all_matched (r : HunkMatch) : Bool :=
  r.sequences.all (fun sq => decide (2 ≤ sq.2.count))

/-- The class assignment of `find_hunk_matches`: `_type` for `'MO'` or
`'PA'` when `match_bool` holds, `'MC'` when it does not, and the empty
string for any other `_type`. -/
def fh_class (t : String) (mb : Bool) : String :=
  if t == "MO" then (if mb then t else "MC")
  else if t == "PA" then (if mb then t else "MC")
  else ""

/-- Second loop of `classifier.find_hunk_matches`.  `match_bool` is
initialized once *before* this loop and never reset inside it, so a
failure in an earlier hunk keeps it false for all later hunks. -/
def fh_phase2 (t : String) : Bool → List (Nat × HunkMatch) → List (Nat × HunkMatch)
  | _, [] => []
  | mb, (nr, r) :: rest =>
    let mb2 := mb && seqs_all_matched r
    (nr, { r with cls := fh_class t mb2 }) :: fh_phase2 t mb2 rest

/-- `classifier.find_hunk_matches` (the `important_hashes` and
`source_hashes` arguments are unused by this variant, as in the code). -/
def find_hunk_matches (match_items : MatchItems) (t : String)
    (_important_hashes : List (List (List Token)))
    (_source_hashes : List (Token × List Nat)) : List (Nat × HunkMatch) :=
  fh_phase2 t true (fh_phase1 match_items)

/-- Python `pat in s` on strings: `seq_has_lead pat s` is
`s.startswith(pat)`. -/
def seq_has_lead : Token → Token → Bool
  | [], _ => true
  | _ :: _, [] => false
  | p :: ps, c :: cs => p == c && seq_has_lead ps cs

/-- Python substring containment `pat in s`. -/
def seq_has_sub : Token → Token → Bool
  | [], pat => seq_has_lead pat []
  | c :: cs, pat => seq_has_lead pat (c :: cs) || seq_has_sub cs pat

/-- The `test` list of `find_hunk_matches_w_important_hash`: for every
token `each` of the supplied important-hash groups, the fingerprint
triples of all source n-grams containing `each` as a substring. -/
def build_test (important_hashes : List (List (List Token)))
    (source_hashes : List (Token × List Nat)) : List (List Nat) :=
  important_hashes.flatMap (fun lines =>
    lines.flatMap (fun line =>
      line.flatMap (fun each =>
        (source_hashes.filter (fun p => seq_has_sub p.1 each)).map (·.2))))

/-- Per-window record built by `find_hunk_matches_w_important_hash`. -/
structure SeqInfoI where
  count : Nat
  hash_list : List Nat
  important : Bool
deriving DecidableEq, Inhabited

/-- Per-hunk record built by `find_hunk_matches_w_important_hash`. -/
structure HunkMatchI where
  sequences : List (Nat × SeqInfoI)
  cls : String
deriving DecidableEq, Inhabited

/-- Inner loop of `find_hunk_matches_w_important_hash` for one hunk:
`match_bool` starts false for every hunk, is set when a window's key
list occurs in `test`, and decides the class (`_type` or `'MC'`); the
per-window counts are computed but do not influence the class. -/
def fh_imp_step (test : List (List Nat)) (acc : List (Nat × SeqInfoI) × Bool)
    (sq : Nat × List (Nat × Bool)) : List (Nat × SeqInfoI) × Bool :=
  let hl := sq.2.map (·.1)
  let imp := test.contains hl
  (acc.1 ++ [(sq.1, ⟨count_true sq.2, hl, imp⟩)], acc.2 || imp)

/-- One hunk of `find_hunk_matches_w_important_hash`: fold the loop body
over the hunk's windows and derive the class from the final
`match_bool`. -/
def fh_imp_record (test : List (List Nat)) (t : String)
    (wins : List (Nat × List (Nat × Bool))) : HunkMatchI :=
  let acc := wins.foldl (fh_imp_step test) ([], false)
  ⟨acc.1, if acc.2 then t else "MC"⟩

/-- `classifier.find_hunk_matches_w_important_hash`. -/
def find_hunk_matches_w_important_hash (match_items : MatchItems) (t : String)
    (important_hashes : List (List (List Token)))
    (source_hashes : List (Token × List Nat)) : List (Nat × HunkMatchI) :=
  let test := build_test important_hashes source_hashes
  match_items.map (fun pr => (pr.1, fh_imp_record test t pr.2))

/-- `classifier.classify_hunk`: the six `if` statements run in order and
each later one overwrites the result of the earlier ones. -/
def classify_hunk (class_patch class_buggy : String) : String :=
  let f0 : String := ""
  let f1 := if class_buggy == "MC" && class_patch == "PA" then "PA" else f0
  let f2 := if class_buggy == "PA" && class_patch == "MC" then "PA" else f1
  let f3 := if class_buggy == "MC" && class_patch == "MC" then "PN" else f2
  let f4 := if class_patch == "" && !(class_buggy == "") then class_buggy else f3
  let f5 := if !(class_patch == "") && class_buggy == "" then class_patch else f4
  if class_patch == "" && class_buggy == "" then "PN" else f5

/-- The per-PR counters of `totals.final_class`. -/
structure Totals where
  total_PA : Nat
  total_NE : Nat
  total_CC : Nat
  total_PN : Nat
  total_ERROR : Nat
deriving DecidableEq

/-- One item of the tally loop in `totals.final_class`.  A label of
`none` models `item['patchClass']` raising (the `except` branch); a
recognized string bumps its counter; any other string falls through all
the `elif` arms and is not tallied at all. -/
def tally_step (t : Totals) (label : Option String) : Totals :=
  match label with
  | none => { t with total_ERROR := t.total_ERROR + 1 }
  | some c =>
    if c == "OTHER EXT" then { t with total_CC := t.total_CC + 1 }
    else if c == "NOT EXISTING" then { t with total_NE := t.total_NE + 1 }
    else if c == "PA" then { t with total_PA := t.total_PA + 1 }
    else if c == "PN" then { t with total_PN := t.total_PN + 1 }
    else if c == "ERROR" then { t with total_ERROR := t.total_ERROR + 1 }
    else t

/-- The tally over all items of one PR. -/
def tally (labels : List (Option String)) : Totals :=
  labels.foldl tally_step ⟨0, 0, 0, 0, 0⟩

/-- Python `max(items, key=itemgetter(1))`: keep the first element,
replace it only when a later second component is strictly greater, so
ties keep the earliest entry. -/
def py_max_go (best : String × Nat) : List (String × Nat) → String × Nat
  | [] => best
  | x :: rest => py_max_go (if x.2 > best.2 then x else best) rest

/-- The per-PR decision of `totals.final_class` from the item labels:
any `PA` wins, else any `PN`, else the first-encountered maximum of the
`stats` dict `{'CC': …, 'NE': …, 'ERROR': …}` in its insertion order. -/
def final_class_pr (labels : List (Option String)) : String :=
  let t := tally labels
  if t.total_PA == 0 then
    if t.total_PN > 0 then "PN"
    else (py_max_go ("CC", t.total_CC) [("NE", t.total_NE), ("ERROR", t.total_ERROR)]).1
  else "PA"

/-- Stated from the spec's words for comparison with `final_class_pr`:
"whichever of CC/NE/ERROR has the largest count, ties broken by
first-encountered-max in the stable tally order" (order CC, NE, ERROR). -/
def spec_first_encountered_max (cc ne er : Nat) : String :=
  if ne > cc then (if er > ne then "ERROR" else "NE")
  else (if er > cc then "ERROR" else "CC")

/-! ### Claim C6: the `classify_hunk` priority table -/

/-- C6: `classify_hunk` satisfies the priority table: `("MC","PA") ↦ "PA"`,
`("PA","MC") ↦ "PA"`, `("MC","MC") ↦ "PN"`, `("","PA") ↦ "PA"`; when
exactly one argument is empty the non-empty side's class is returned in
either position, and `("","") ↦ "PN"`. -/
theorem C6_classify_hunk_table :
    classify_hunk "MC" "PA" = "PA" ∧
    classify_hunk "PA" "MC" = "PA" ∧
    classify_hunk "MC" "MC" = "PN" ∧
    classify_hunk "" "PA" = "PA" ∧
    classify_hunk "" "" = "PN" ∧
    (∀ s : String, s ≠ "" → classify_hunk "" s = s ∧ classify_hunk s "" = s) := by
  refine ⟨by decide, by decide, by decide, by decide, by decide, ?_⟩
  intro s hs
  have hb : (s == "") = false := beq_eq_false_iff_ne.mpr hs
  constructor <;>
    simp [classify_hunk, hb,
      show (("" : String) == "PA") = false from by decide,
      show (("" : String) == "MC") = false from by decide,
      show (("" : String) == "") = true from by decide]

/-- Witness for C6: the universally quantified empty-side rule applied at
the concrete class `"MC"`. -/
theorem C6_classify_hunk_table_witness :
    classify_hunk "" "MC" = "MC" ∧ classify_hunk "MC" "" = "MC" :=
  C6_classify_hunk_table.2.2.2.2.2 "MC" (by decide)

/-! ### Claim C7: short-hunk shrink in `_add_patch_from_diff` -/

/-- Counterexample for C7 as stated: a hunk whose normalized token count
is `k = 0 < N = 1` gets effective n-gram size `0`, which is below `1`
(the claim says the size is "never below 1"); one (empty) fingerprint
window is still produced and `PatchInfo` records size `0`. -/
theorem C7_zero_token_hunk_cex :
    (add_patch_from_diff 1 []).1.ngram_size = 0 ∧
    ¬ 1 ≤ (add_patch_from_diff 1 []).1.ngram_size ∧
    (add_patch_from_diff 1 []).1.patch_hashes.length = 1 ∧
    (add_patch_from_diff 1 []).2 = 0 := by
  decide

/-- C7 amended: for a hunk with `k < N` normalized tokens,
`_add_patch_from_diff` shrinks the effective n-gram size to exactly `k`
(which is `0`, not `1`, when the hunk normalizes to no tokens), produces
exactly one fingerprint window, records `k` in the `PatchInfo`, and
leaves `k` in the global n-gram size. -/
theorem C7_short_hunk_shrink (N : Nat) (lines : List Token)
    (h : lines.length < N) :
    (add_patch_from_diff N lines).1.ngram_size = lines.length ∧
    (add_patch_from_diff N lines).1.patch_hashes.length = 1 ∧
    (add_patch_from_diff N lines).2 = lines.length := by
  have hnot : ¬ lines.length ≥ N := by omega
  have hw : num_windows lines.length lines.length = 1 := by
    simp [num_windows]
  refine ⟨?_, ?_, ?_⟩ <;>
    simp [add_patch_from_diff, hnot, build_hash_list, hw]

/-- Witness for C7: the amended statement at `N = 3` and a one-token
hunk. -/
theorem C7_short_hunk_shrink_witness :
    (add_patch_from_diff 3 [['a']]).1.ngram_size = 1 ∧
    (add_patch_from_diff 3 [['a']]).1.patch_hashes.length = 1 ∧
    (add_patch_from_diff 3 [['a']]).2 = 1 :=
  C7_short_hunk_shrink 3 [['a']] (by decide)

/-! ### Claim C2: unmasked hashes index the bit vector out of bounds -/

/-- Any hash list containing a value `≥ bloomfilter_size` makes
`check_hashes_go` raise `IndexError`, whatever the counters are. -/
theorem check_hashes_go_oob (bv : List Nat) :
    ∀ (hl : List Nat) (i seq : Nat), (∃ h ∈ hl, bloomfilter_size ≤ h) →
      check_hashes_go bv hl i seq = .error "IndexError"
  | [], _, _, h => by simp at h
  | h :: rest, i, seq, hex => by
    rcases hex with ⟨x, hx, hxge⟩
    by_cases hh : h < bloomfilter_size
    · have hxr : x ∈ rest := by
        rcases List.mem_cons.mp hx with rfl | hr
        · omega
        · exact hr
      have ih := check_hashes_go_oob bv rest
        ((if i == 3 then (0, seq + 1) else (i, seq)).1 + 1)
        (if i == 3 then (0, seq + 1) else (i, seq)).2 ⟨x, hxr, hxge⟩
      simp only [check_hashes_go, bv_get, hh, if_pos, ih]
    · simp only [check_hashes_go, bv_get, hh, if_neg, ite_false]

/-- C2: `_check_patch_hashes` tests the bit vector at the raw 32-bit
hash values of the record's `hash_list` (never masked by the patch
loader), so every record containing a hash `≥ bloomfilter_size =
2,097,152` makes the membership test index the 2,097,152-entry bit
vector out of bounds and raise `IndexError` instead of returning a
verdict. -/
theorem C2_unmasked_hash_index_error (bv : List Nat) (hash_list : List Nat)
    (h : ∃ x ∈ hash_list, bloomfilter_size ≤ x) :
    check_patch_hashes bv hash_list = .error "IndexError" :=
  check_hashes_go_oob bv hash_list 0 0 h

/-- Witness for C2: a record whose first hash is exactly the filter
size. -/
theorem C2_unmasked_hash_index_error_witness :
    check_patch_hashes [] [2097152] = .error "IndexError" :=
  C2_unmasked_hash_index_error [] [2097152] ⟨2097152, by decide, by decide⟩

/-! ### Claim C10: patches without `@@` markers -/

/-- Counterexample for C10 as stated: a patch text consisting of the
single line `+f` has no line beginning with `@@`, yet processing it
flushes the accumulated changed line as one final hunk, appending one
`PatchInfo` — not zero. -/
theorem C10_no_marker_cex :
    (([['+', 'f']] : List Token).all (fun l => !line_marks_hunk l)) = true ∧
    (collect_hunks '+' [['+', 'f']]).length = 1 := by
  decide

/-- With no `@@` line in sight, the pending-hunk buffer is never flushed
nor cleared mid-stream, so the final flush emits one group exactly when
the buffer ends up non-empty. -/
theorem collect_hunks_go_no_marker (mode : Char) :
    ∀ (lines : List Token) (cur : List Token) (acc : List (List Token)),
      (∀ l ∈ lines, line_marks_hunk l = false) →
      (collect_hunks_go mode lines cur acc).length =
        acc.length +
          (if cur.isEmpty &&
              !(lines.any (fun l => line_starts mode l || line_starts ' ' l))
           then 0 else 1)
  | [], cur, acc, _ => by
    cases hc : cur.isEmpty <;>
      simp [collect_hunks_go, hc]
  | l :: rest, cur, acc, h => by
    have hl : line_marks_hunk l = false := h l (List.mem_cons_self l rest)
    have hrest : ∀ x ∈ rest, line_marks_hunk x = false :=
      fun x hx => h x (List.mem_cons_of_mem l hx)
    have hne : ((cur ++ [l.drop 1]).isEmpty) = false := by
      cases cur <;> rfl
    by_cases hm : line_starts mode l = true
    · have ih := collect_hunks_go_no_marker mode rest (cur ++ [l.drop 1]) acc hrest
      rw [hne] at ih
      simp only [List.drop_one, Bool.false_and, if_neg Bool.false_ne_true] at ih
      simp [collect_hunks_go, hl, hm, ih]
    · by_cases hsp : line_starts ' ' l = true
      · have ih := collect_hunks_go_no_marker mode rest (cur ++ [l.drop 1]) acc hrest
        rw [hne] at ih
        simp only [List.drop_one, Bool.false_and, if_neg Bool.false_ne_true] at ih
        simp [collect_hunks_go, hl, hm, hsp, ih]
      · have ih := collect_hunks_go_no_marker mode rest cur acc hrest
        simp [collect_hunks_go, hl, hm, hsp, ih]

/-- C10 amended: a patch text with no `@@` line produces zero hunks only
when it also contains no changed-line (`+` for the patch variant, `-`
for the buggy variant) and no space-prefixed line; otherwise all such
lines accumulate and are flushed as exactly one hunk at end of input. -/
theorem C10_no_marker_hunks (mode : Char) (lines : List Token)
    (h : lines.all (fun l => !line_marks_hunk l) = true) :
    (collect_hunks mode lines).length =
      (if lines.any (fun l => line_starts mode l || line_starts ' ' l)
       then 1 else 0) := by
  have h2 : ∀ l ∈ lines, line_marks_hunk l = false := by
    intro l hl
    have := List.all_eq_true.mp h l hl
    simpa using this
  have := collect_hunks_go_no_marker mode lines [] [] h2
  simp only [collect_hunks] at *
  rw [this]
  cases hany : lines.any (fun l => line_starts mode l || line_starts ' ' l) <;>
    simp [hany]

/-- Witness for C10: the amended statement on a marker-free text with no
contributing lines (zero hunks). -/
theorem C10_no_marker_hunks_witness :
    (collect_hunks '+' [['x']]).length =
      (if ([['x']] : List Token).any
          (fun l => line_starts '+' l || line_starts ' ' l)
       then 1 else 0) :=
  C10_no_marker_hunks '+' [['x']] (by decide)

/-! ### Claim C9: the mid-scan evaluation-and-reset boundary -/

/-- A window iteration whose processed counter has not yet exceeded
`bloomfilter_size / min_mn_ratio` takes the normal branch and bumps the
counter. -/
theorem scan_step_no_trigger (tokens : List Token) (n : Nat) (st : ScanState)
    (i : Nat) (hle : ¬ st.num_ngram_processed > bloomfilter_size / min_mn_ratio) :
    ∃ st2, scan_step tokens n st i = .ok st2 ∧
      st2.num_ngram_processed = st.num_ngram_processed + 1 := by
  simp only [scan_step, if_neg hle]
  exact ⟨_, rfl, rfl⟩

/-- As long as the initial counter plus the number of remaining window
iterations stays at most `65537 = bloomfilter_size / min_mn_ratio + 1`,
the window loop never enters the reset branch and succeeds. -/
theorem scan_fold_ok (tokens : List Token) (n : Nat) :
    ∀ (idxs : List Nat) (st : ScanState),
      st.num_ngram_processed + idxs.length ≤ 65537 →
      ∃ st2, idxs.foldlM (scan_step tokens n) st = .ok st2 ∧
        st2.num_ngram_processed = st.num_ngram_processed + idxs.length := by
  intro idxs
  induction idxs with
  | nil => exact fun st _ => ⟨st, rfl, by simp⟩
  | cons i rest ih =>
    intro st h
    have hth : bloomfilter_size / min_mn_ratio = 65536 := by decide
    have hle : ¬ st.num_ngram_processed > bloomfilter_size / min_mn_ratio := by
      rw [hth]
      simp only [List.length_cons] at h
      omega
    obtain ⟨st1, hs1, hp1⟩ := scan_step_no_trigger tokens n st i hle
    obtain ⟨st2, h2, hp2⟩ := ih st1 (by
      simp only [List.length_cons] at h
      omega)
    refine ⟨st2, ?_, by simp [hp2, hp1]; omega⟩
    rw [List.foldlM_cons, hs1]
    exact h2

/-- If the loop starts with counter at most `65537` but has exactly
enough iterations to reach counter value `65538`, some iteration starts
with the counter at `65537 > 65536`, the reset branch is entered, and
its call to `_check_bloom_match` raises `AttributeError` (`PatchInfo`
namedtuples have no `get` method). -/
theorem scan_fold_error (tokens : List Token) (n : Nat) :
    ∀ (idxs : List Nat) (st : ScanState),
      st.num_ngram_processed ≤ 65537 →
      st.num_ngram_processed + idxs.length = 65538 →
      idxs.foldlM (scan_step tokens n) st = .error "AttributeError" := by
  intro idxs
  induction idxs with
  | nil =>
    intro st h1 h2
    simp only [List.length_nil] at h2
    omega
  | cons i rest ih =>
    intro st h1 h2
    have hth : bloomfilter_size / min_mn_ratio = 65536 := by decide
    by_cases hp : st.num_ngram_processed = 65537
    · have htr : st.num_ngram_processed > bloomfilter_size / min_mn_ratio := by
        rw [hth]; omega
      rw [List.foldlM_cons]
      simp only [scan_step, if_pos htr]
      rfl
    · have hle : ¬ st.num_ngram_processed > bloomfilter_size / min_mn_ratio := by
        rw [hth]; omega
      obtain ⟨st1, hs1, hp1⟩ := scan_step_no_trigger tokens n st i hle
      rw [List.foldlM_cons, hs1]
      have := ih st1 (by omega) (by
        simp only [List.length_cons] at h2
        omega)
      exact this

/-- Counterexample for C9 as stated: scanning a source of exactly
`bloomfilter_size / min_mn_ratio + 1 = 65537` windows (65537 tokens at
n-gram size 1) completes successfully; the reset branch is never entered
(entering it returns `.error`), so the scan triggers zero
evaluation-and-reset cycles, not exactly one. -/
theorem C9_reset_boundary_cex :
    ∃ st2, scan_source (List.replicate 65537 ['a']) 1 ⟨[], 0, []⟩ = .ok st2 := by
  have hnw : num_windows (List.replicate 65537 (['a'] : Token)).length 1 = 65537 := by
    rw [List.length_replicate]
    decide
  obtain ⟨st2, h2, -⟩ := scan_fold_ok (List.replicate 65537 ['a']) 1
    (List.range (num_windows (List.replicate 65537 ['a']).length 1)) ⟨[], 0, []⟩
    (by rw [List.length_range, hnw])
  exact ⟨st2, h2⟩

/-- C9 amended: a scan of exactly `size/ratio + 1 = 65537` windows never
reaches the reset branch (the strict `>` comparison needs the counter to
pass `65537`, which takes `65538` windows), so no mid-scan
evaluation-and-reset cycle happens; with `size/ratio + 2 = 65538`
windows the reset branch is entered exactly once, and its evaluation of
the pending old fingerprints fails with `AttributeError` because
`PatchInfo` has no `get`/`old_norm_lines`. -/
theorem C9_reset_boundary (tokens : List Token) (n : Nat)
    (sh : List (Token × List Nat)) :
    (num_windows tokens.length n = 65537 →
      ∃ st2, scan_source tokens n ⟨[], 0, sh⟩ = .ok st2) ∧
    (num_windows tokens.length n = 65538 →
      scan_source tokens n ⟨[], 0, sh⟩ = .error "AttributeError") := by
  constructor
  · intro h
    obtain ⟨st2, h2, -⟩ := scan_fold_ok tokens n
      (List.range (num_windows tokens.length n)) ⟨[], 0, sh⟩ (by simp [h])
    exact ⟨st2, h2⟩
  · intro h
    exact scan_fold_error tokens n _ ⟨[], 0, sh⟩ (by simp) (by simp [h])

/-- Witness for C9: the amended statement at a concrete 65537-token
source scanned at n-gram size 1. -/
theorem C9_reset_boundary_witness :
    ∃ st2, scan_source (List.replicate 65537 ['b']) 1 ⟨[], 0, []⟩ = .ok st2 :=
  (C9_reset_boundary (List.replicate 65537 ['b']) 1 []).1 (by
    rw [List.length_replicate]
    decide)

/-! ### Claim C8: records larger than the source token stream -/

/-- Against an all-zero (empty) bit vector every in-range membership
read returns false, so a successful `_check_patch_hashes` records only
false verdicts. -/
theorem check_hashes_go_empty_false :
    ∀ (hl : List Nat) (i seq : Nat) (v : List (Nat × Nat × Bool)),
      check_hashes_go [] hl i seq = .ok v → ∀ e ∈ v, e.2.2 = false := by
  intro hl
  induction hl with
  | nil =>
    intro i seq v hv e he
    simp only [check_hashes_go] at hv
    cases hv
    simp at he
  | cons h rest ih =>
    intro i seq v hv e he
    by_cases hh : h < bloomfilter_size
    · simp only [check_hashes_go, bv_get, if_pos hh] at hv
      cases hrec : check_hashes_go [] rest
          ((if i == 3 then (0, seq + 1) else (i, seq)).1 + 1)
          (if i == 3 then (0, seq + 1) else (i, seq)).2 with
      | error e2 => rw [hrec] at hv; cases hv
      | ok l =>
        rw [hrec] at hv
        cases hv
        rcases List.mem_cons.mp he with rfl | hl2
        · rfl
        · exact ih _ _ l hrec e hl2
    · simp only [check_hashes_go, bv_get, if_neg hh] at hv
      cases hv

/-- When the source token stream is shorter than the n-gram size at the
top of the patch loop, the loop returns immediately, keeping the state
accumulated so far and skipping every remaining patch record. -/
theorem query_go_skip (tokens : List Token) (recs : List PatchInfo)
    (cur pid : Nat) (acc : List (Nat × List (Nat × Nat × Bool)))
    (sh : List (Token × List Nat)) (h : tokens.length < cur) :
    query_bloomfilter_go tokens recs cur pid acc sh = .ok ⟨acc, sh, cur⟩ := by
  cases recs with
  | nil => rfl
  | cons r rs => simp [query_bloomfilter_go, if_pos h]

/-- C8 amended: the short-source guard compares the token count against
the *previous* record's n-gram size, so a record whose own effective
size exceeds the token count (but passes the stale guard) is still
processed: the bit vector is cleared, zero windows are scanned, and the
final membership check runs against the all-zero vector — raising
`IndexError` when a raw hash is out of range and otherwise recording an
all-false verdict for the record; after it, the now-updated guard makes
the loop return, skipping all remaining records.  When the guard itself
fires, the scan returns immediately with the work done so far. -/
theorem C8_short_source_behavior (tokens : List Token) (r : PatchInfo)
    (rest : List PatchInfo) (n0 : Nat)
    (hguard : ¬ tokens.length < n0) (hshort : tokens.length < r.ngram_size) :
    (query_bloomfilter tokens (r :: rest) n0 =
      match check_patch_hashes [] r.hash_list with
      | .error e => .error e
      | .ok v => .ok ⟨[(0, v)], [], r.ngram_size⟩) ∧
    (∀ v, check_patch_hashes [] r.hash_list = .ok v → ∀ e ∈ v, e.2.2 = false) ∧
    (∀ m0 : Nat, tokens.length < m0 →
      query_bloomfilter tokens (r :: rest) m0 = .ok ⟨[], [], m0⟩) := by
  have hw : num_windows tokens.length r.ngram_size = 0 := by
    simp only [num_windows, Int.toNat_eq_zero]
    omega
  have hscan : scan_source tokens r.ngram_size (⟨[], 0, []⟩ : ScanState) =
      .ok ⟨[], 0, []⟩ := by
    simp only [scan_source, hw, List.range_zero, List.foldlM_nil]
    rfl
  refine ⟨?_, ?_, ?_⟩
  · have hunfold : query_bloomfilter tokens (r :: rest) n0 =
        match check_patch_hashes [] r.hash_list with
        | .error e => .error e
        | .ok verdicts =>
          query_bloomfilter_go tokens rest r.ngram_size 1 [(0, verdicts)] [] := by
      simp [query_bloomfilter, query_bloomfilter_go, if_neg hguard, hscan]
    rw [hunfold]
    cases hc : check_patch_hashes [] r.hash_list with
    | error e => rfl
    | ok v => exact query_go_skip tokens rest r.ngram_size 1 [(0, v)] [] hshort
  · intro v hv
    exact check_hashes_go_empty_false r.hash_list 0 0 v hv
  · intro m0 hm
    exact query_go_skip tokens (r :: rest) m0 0 [] [] hm

/-- A concrete record built from a two-token hunk at n-gram size 2. -/
def rec_two_tok : PatchInfo := (add_patch_from_diff 2 [['a'], ['b']]).1

/-- Counterexample for C8 as stated: for a source of one token and a
patch record of effective n-gram size 2, the scan does not "yield no
match and move on" — its final membership check reads the bit vector at
the raw hash of the window `"a b"` (3 raw hashes, all `≥ 2,097,152`) and
the whole traversal aborts with `IndexError`, escalating the short-input
case as an error. -/
theorem C8_short_source_cex :
    (1 : Nat) < rec_two_tok.ngram_size ∧
    query_bloomfilter [['a']] [rec_two_tok] 1 = .error "IndexError" := by
  constructor
  · decide
  · rfl

/-- Witness for C8: the amended statement at the concrete short source
`[['a']]` against `rec_two_tok`. -/
theorem C8_short_source_behavior_witness :
    (query_bloomfilter [['a']] [rec_two_tok] 1 =
      match check_patch_hashes [] rec_two_tok.hash_list with
      | .error e => .error e
      | .ok v => .ok ⟨[(0, v)], [], rec_two_tok.ngram_size⟩) ∧
    (∀ v, check_patch_hashes [] rec_two_tok.hash_list = .ok v →
      ∀ e ∈ v, e.2.2 = false) ∧
    (∀ m0 : Nat, ([['a']] : List Token).length < m0 →
      query_bloomfilter [['a']] [rec_two_tok] m0 = .ok ⟨[], [], m0⟩) :=
  C8_short_source_behavior [['a']] rec_two_tok [] 1 (by decide) (by decide)

/-! ### Claim C1: Bloom-filter soundness ("no false negatives") -/

/-- A concrete record built from a one-token hunk at n-gram size 1. -/
def rec_one_tok : PatchInfo := (add_patch_from_diff 1 [['a']]).1

/-- C1 is the intended Bloom-filter soundness property and the code
violates it: scanning the source token stream `["a"]` sets the three
bits for the window `"a"` at *masked* positions, but the final
membership test of `_check_patch_hashes` reads the bit vector at the
*raw* 32-bit hashes from the record's `hash_list`; here
`fnv1a("a") = 3826002220 ≥ 2,097,152`, so the test raises `IndexError`
instead of reporting the three bits set, although the record's single
window occurs verbatim in the scanned source (and no reset happened). -/
theorem C1_bloom_false_negative_eval :
    rec_one_tok.ngram_size = 1 ∧
    rec_one_tok.norm_lines = [['a']] ∧
    bloomfilter_size ≤ fnv1a_hash ['a'] ∧
    query_bloomfilter [['a']] [rec_one_tok] 1 = .error "IndexError" := by
  refine ⟨rfl, rfl, by decide, rfl⟩

/-! ### Claim C3: `find_hunk_matches` and the shared `match_bool` -/

/-- For a requested type in `{PA, MO}` the class assignment collapses to
an if-then-else on `match_bool`. -/
theorem fh_class_eq (t : String) (b : Bool) (ht : t = "PA" ∨ t = "MO") :
    fh_class t b = if b then t else "MC" := by
  rcases ht with rfl | rfl <;> cases b <;> decide

/-- Indexing the second classifier loop: the class stored at position
`i` is decided by the incoming `match_bool` conjoined with the window
condition of every hunk up to and including `i`. -/
theorem fh_phase2_getD (t : String) :
    ∀ (l : List (Nat × HunkMatch)) (mb : Bool) (i : Nat), i < l.length →
      ((fh_phase2 t mb l).getD i default).2.cls =
        fh_class t (mb && (l.take (i + 1)).all (fun p => seqs_all_matched p.2)) := by
  intro l
  induction l with
  | nil =>
    intro mb i hi
    simp at hi
  | cons hd rest ih =>
    obtain ⟨nr, r⟩ := hd
    intro mb i hi
    match i with
    | 0 =>
      simp [fh_phase2]
    | i + 1 =>
      have step := ih (mb && seqs_all_matched r) i (by simpa using hi)
      simp only [fh_phase2, List.getD_cons_succ, List.take_succ_cons,
        List.all_cons, step, Bool.and_assoc]

/-- `List.all` over a type-changing `map` (the library lemma `all_map`
is stated only for an endomap in this version). -/
theorem list_all_map_comp {α β : Type} (f : α → β) (l : List α) (p : β → Bool) :
    (l.map f).all p = l.all (fun a => p (f a)) := by
  induction l with
  | nil => rfl
  | cons a l ih => simp [ih]

/-- The phase-1 hunk record is fully matched iff every raw window has at
least 2 true checks. -/
theorem seqs_all_matched_mk (wins : List (Nat × List (Nat × Bool))) :
    seqs_all_matched
        ⟨wins.map (fun sq => (sq.1, ⟨count_true sq.2, sq.2.map (·.1)⟩)), ""⟩ =
      wins.all (fun sq => decide (2 ≤ count_true sq.2)) := by
  simp only [seqs_all_matched]
  rw [list_all_map_comp]

/-- The window condition evaluated on the phase-1 output agrees with the
raw `match_items` condition "every window has at least 2 true checks". -/
theorem fh_phase1_all (m : MatchItems) (k : Nat) :
    ((fh_phase1 m).take k).all (fun p => seqs_all_matched p.2) =
      (m.take k).all (fun pr => pr.2.all (fun sq => decide (2 ≤ count_true sq.2))) := by
  rw [fh_phase1, ← List.map_take, list_all_map_comp]
  exact congrArg _ (funext fun pr => seqs_all_matched_mk pr.2)

/-- Counterexample data for C3: hunk 0 has a window with 0 true checks,
hunk 1 has a single window with 2 true checks. -/
def m_cross : MatchItems :=
  [(0, [(0, [(10, false)])]), (1, [(0, [(11, true), (12, true)])])]

/-- Counterexample for C3 as stated: in `m_cross` every window of hunk 1
meets the ≥ 2-of-3 threshold, yet `find_hunk_matches` classifies hunk 1
as `"MC"` (not the requested `"PA"`), because the `match_bool` flag was
lost at hunk 0 and is never reset — a hunk's class does not depend only
on its own windows. -/
theorem C3_per_hunk_independence_cex :
    ((m_cross.getD 1 default).2.all (fun sq => decide (2 ≤ count_true sq.2))) = true ∧
    ((find_hunk_matches m_cross "PA" [] []).getD 1 default).2.cls = "MC" ∧
    ("MC" : String) ≠ "PA" := by
  decide

/-- C3 amended: for `t ∈ {PA, MO}`, `find_hunk_matches` classifies the
hunk at position `i` as `t` iff *every* window of *every hunk up to and
including position `i`* has at least 2 of its 3 hash checks true, and as
`"MC"` otherwise: the `match_bool` accumulator is shared by all hunks of
the table, so each hunk's class depends on all earlier hunks as well. -/
theorem C3_cumulative_match_bool (m : MatchItems) (t : String)
    (ihs : List (List (List Token))) (sh : List (Token × List Nat)) (i : Nat)
    (ht : t = "PA" ∨ t = "MO") (hi : i < m.length) :
    ((find_hunk_matches m t ihs sh).getD i default).2.cls =
      (if (m.take (i + 1)).all (fun pr => pr.2.all (fun sq => decide (2 ≤ count_true sq.2)))
       then t else "MC") := by
  have hlen : i < (fh_phase1 m).length := by simpa [fh_phase1] using hi
  have h2 := fh_phase2_getD t (fh_phase1 m) true i hlen
  simp only [find_hunk_matches, h2, Bool.true_and, fh_phase1_all m (i + 1),
    fh_class_eq t _ ht]

/-- Witness for C3: the amended statement at `m_cross`, `t = "PA"`,
hunk index 1. -/
theorem C3_cumulative_match_bool_witness :
    ((find_hunk_matches m_cross "PA" [] []).getD 1 default).2.cls =
      (if (m_cross.take 2).all (fun pr => pr.2.all (fun sq => decide (2 ≤ count_true sq.2)))
       then "PA" else "MC") :=
  C3_cumulative_match_bool m_cross "PA" [] [] 1 (Or.inl rfl) (by decide)

/-! ### Claim C4: the important-hash short circuit -/

/-- The `match_bool` component of the per-hunk fold is the disjunction
of "this window's key list occurs in `test`" over the hunk's windows. -/
theorem fh_imp_step_fold_snd (test : List (List Nat)) :
    ∀ (wins : List (Nat × List (Nat × Bool))) (acc0 : List (Nat × SeqInfoI)) (b0 : Bool),
      (wins.foldl (fh_imp_step test) (acc0, b0)).2 =
        (b0 || wins.any (fun sq => test.contains (sq.2.map (·.1)))) := by
  intro wins
  induction wins with
  | nil => simp
  | cons sq rest ih =>
    intro acc0 b0
    simp [fh_imp_step, ih, Bool.or_assoc]

/-- The class of one hunk in the important-hash variant. -/
theorem fh_imp_record_cls (test : List (List Nat)) (t : String)
    (wins : List (Nat × List (Nat × Bool))) :
    (fh_imp_record test t wins).cls =
      (if wins.any (fun sq => test.contains (sq.2.map (·.1))) then t else "MC") := by
  simp only [fh_imp_record]
  rw [fh_imp_step_fold_snd]
  rfl

/-- C4: in `find_hunk_matches_w_important_hash` a hunk is classified as
the requested type `t` iff at least one of its windows is flagged
important — its key list occurs among the fingerprints derived from the
supplied important hashes and source hashes (`build_test`) — regardless
of the other windows and independently of any per-window count
threshold; otherwise the hunk is classified `"MC"`. -/
theorem C4_important_hash_short_circuit (m : MatchItems) (t : String)
    (ihs : List (List (List Token))) (sh : List (Token × List Nat)) (i : Nat)
    (hi : i < m.length) :
    ((find_hunk_matches_w_important_hash m t ihs sh).getD i default).2.cls =
      (if (m.getD i default).2.any
          (fun sq => (build_test ihs sh).contains (sq.2.map (·.1)))
       then t else "MC") := by
  induction m generalizing i with
  | nil => simp at hi
  | cons pr rest ihm =>
    match i with
    | 0 =>
      simp [find_hunk_matches_w_important_hash, fh_imp_record_cls]
    | i + 1 =>
      have step := ihm (i := i) (by simpa using hi)
      simp only [find_hunk_matches_w_important_hash, List.map_cons,
        List.getD_cons_succ] at step ⊢
      exact step

/-- Concrete important-hash data: the token `x` occurs in the source
n-gram `x`, whose fingerprint is `[5, 6, 7]`. -/
def sh_imp : List (Token × List Nat) := [(['x'], [5, 6, 7])]

/-- One important-hash group containing the single token `x`. -/
def ih_imp : List (List (List Token)) := [[[['x']]]]

/-- One hunk whose first window has key list `[5, 6, 7]` (flagged
important; only 1 of 3 checks true) and whose second window fails. -/
def m_imp : MatchItems :=
  [(0, [(0, [(5, true), (6, false), (7, false)]), (1, [(9, false)])])]

/-- Witness for C4: the statement at the concrete `m_imp` table, where
the important flag alone classifies the hunk as `"PA"`. -/
theorem C4_important_hash_short_circuit_witness :
    ((find_hunk_matches_w_important_hash m_imp "PA" ih_imp sh_imp).getD 0 default).2.cls =
      (if (m_imp.getD 0 default).2.any
          (fun sq => (build_test ih_imp sh_imp).contains (sq.2.map (·.1)))
       then "PA" else "MC") :=
  C4_important_hash_short_circuit m_imp "PA" ih_imp sh_imp 0 (by decide)

/-! ### Claim C5: PR-level aggregation in `totals.final_class` -/

/-- Python's first-encountered-max over the three-entry `stats` dict in
its insertion order `CC, NE, ERROR` agrees with the spec-shaped
formulation. -/
theorem py_max3 (cc ne er : Nat) :
    (py_max_go ("CC", cc) [("NE", ne), ("ERROR", er)]).1 =
      spec_first_encountered_max cc ne er := by
  simp only [py_max_go, spec_first_encountered_max]
  by_cases h1 : ne > cc
  · by_cases h2 : er > ne <;> simp [h1, h2]
  · by_cases h2 : er > cc <;> simp [h1, h2]

/-- Counterexample for C5 as stated: the present-but-unrecognized label
string `"XYZ"` is not a recognized class, so the claim's "malformed
label tallied as ERROR" would give tally `ERROR = 1` and PR class
`"ERROR"`; the code instead falls through every `elif`, tallies nothing,
and the all-zero tally yields class `"CC"`. -/
theorem C5_unrecognized_label_cex :
    tally [some "XYZ"] = ⟨0, 0, 0, 0, 0⟩ ∧
    final_class_pr [some "XYZ"] = "CC" ∧
    ("CC" : String) ≠ "ERROR" := by
  decide

/-- C5 amended: any `PA` tally makes the PR `PA`; else any `PN` tally
makes it `PN`; else the class is the first-encountered maximum of the
`CC`, `NE`, `ERROR` counts in that stable order; an `OTHER EXT` label is
tallied as `CC` and a *missing* label (`patchClass` unreadable) as
`ERROR`, while a present but unrecognized label string is not tallied at
all. -/
theorem C5_final_class_priority (labels : List (Option String)) :
    (0 < (tally labels).total_PA → final_class_pr labels = "PA") ∧
    ((tally labels).total_PA = 0 → 0 < (tally labels).total_PN →
      final_class_pr labels = "PN") ∧
    ((tally labels).total_PA = 0 → (tally labels).total_PN = 0 →
      final_class_pr labels =
        spec_first_encountered_max (tally labels).total_CC
          (tally labels).total_NE (tally labels).total_ERROR) ∧
    (∀ t : Totals, tally_step t (some "OTHER EXT") =
      { t with total_CC := t.total_CC + 1 }) ∧
    (∀ t : Totals, tally_step t none =
      { t with total_ERROR := t.total_ERROR + 1 }) ∧
    (∀ (t : Totals) (c : String), c ≠ "OTHER EXT" → c ≠ "NOT EXISTING" →
      c ≠ "PA" → c ≠ "PN" → c ≠ "ERROR" → tally_step t (some c) = t) := by
  refine ⟨?_, ?_, ?_, fun t => rfl, fun t => rfl, ?_⟩
  · intro h
    have hne : (tally labels).total_PA ≠ 0 := by omega
    simp [final_class_pr, hne]
  · intro h0 hpn
    simp [final_class_pr, h0, hpn]
  · intro h0 hpn0
    simp [final_class_pr, h0, hpn0]
    exact py_max3 _ _ _
  · intro t c h1 h2 h3 h4 h5
    simp [tally_step, beq_eq_false_iff_ne.mpr h1, beq_eq_false_iff_ne.mpr h2,
      beq_eq_false_iff_ne.mpr h3, beq_eq_false_iff_ne.mpr h4,
      beq_eq_false_iff_ne.mpr h5]

/-- Witness for C5: the amended statement at a PR whose items carry one
`PN`, one unrecognized label and one unreadable label. -/
theorem C5_final_class_priority_witness :
    final_class_pr [some "PN", some "garbage", none] = "PN" :=
  (C5_final_class_priority [some "PN", some "garbage", none]).2.1
    (by decide) (by decide)
